import Mathlib

/-!
Shallow embedding of the stateful NAT64 filtering core (Jool):
the TCP session state machine, the expiry reaper, the BIB/session creation
path (nf_nat64_filtering_and_updating.h), the IPv4 transport-address pool
(mod/pool4.c) and the mark-keyed pool4 database (mod/stateful/pool4/db.c),
together with theorems checking the natural-language specification
against these definitions.

Machine integers are modelled as Nat with explicit truncation where the C
code truncates; the host is modelled as little-endian, so be16_to_cpu and
ntohs swap the two bytes of a 16-bit value.  Kernel allocations are
modelled by explicit success oracles where their outcome matters.
-/

namespace Jool

/-- Byte swap of a 16-bit value (little-endian host model of be16_to_cpu
and ntohs). -/
def swap16 (n : Nat) : Nat := (n % 256) * 256 + (n / 256) % 256

/-- The five expiry queues (enum expiry_type). -/
inductive ExpiryType
  | UDP_DEFAULT
  | TCP_TRANS
  | TCP_EST
  | TCP_INCOMING_SYN
  | ICMP_DEFAULT
deriving DecidableEq, Repr

/-- The TCP session states (enum state_type). -/
inductive StateType
  | CLOSED
  | V6_SYN_RCV
  | V4_SYN_RCV
  | FOUR_MIN
  | ESTABLISHED
  | V6_FIN_RCV
  | V4_FIN_RCV
  | V6_FIN_V4_FIN
deriving DecidableEq, Repr

/-- The TCP header flags that the state machine inspects (struct tcphdr). -/
structure TcpHdr where
  syn : Bool
  fin : Bool
  rst : Bool
deriving DecidableEq, Repr

/-- Transition function of tcp6_fsm (packet arriving from the v6 side):
next state and the expiry queue session_renew is called with, if any.
Mirrors the switch statement of the source. -/
def tcp6_fsm : StateType → TcpHdr → StateType × Option ExpiryType
  | .CLOSED, h =>
      if h.syn then (.V6_SYN_RCV, some .TCP_TRANS) else (.CLOSED, none)
  | .V6_SYN_RCV, h =>
      if h.syn then (.V6_SYN_RCV, some .TCP_TRANS) else (.V6_SYN_RCV, none)
  | .V4_SYN_RCV, h =>
      if h.syn then (.ESTABLISHED, some .TCP_EST) else (.V4_SYN_RCV, none)
  | .FOUR_MIN, h =>
      if !h.rst then (.ESTABLISHED, some .TCP_EST) else (.FOUR_MIN, none)
  | .ESTABLISHED, h =>
      if h.fin then (.V6_FIN_RCV, none)
      else if h.rst then (.FOUR_MIN, some .TCP_TRANS)
      else (.ESTABLISHED, some .TCP_EST)
  | .V6_FIN_RCV, _ => (.V6_FIN_RCV, some .TCP_EST)
  | .V4_FIN_RCV, h =>
      if h.fin then (.V6_FIN_V4_FIN, some .TCP_TRANS)
      else (.V4_FIN_RCV, some .TCP_EST)
  | .V6_FIN_V4_FIN, _ => (.V6_FIN_V4_FIN, none)

/-- Transition function of tcp4_fsm (packet arriving from the v4 side).
Mirrors the switch statement of the source; the V4_SYN_RCV renewal is
commented out in the source, so that state ignores v4 packets. -/
def tcp4_fsm : StateType → TcpHdr → StateType × Option ExpiryType
  | .CLOSED, _ => (.CLOSED, none)
  | .V6_SYN_RCV, h =>
      if h.syn then (.ESTABLISHED, some .TCP_EST) else (.V6_SYN_RCV, none)
  | .V4_SYN_RCV, _ => (.V4_SYN_RCV, none)
  | .FOUR_MIN, h =>
      if !h.rst then (.ESTABLISHED, some .TCP_EST) else (.FOUR_MIN, none)
  | .ESTABLISHED, h =>
      if h.fin then (.V4_FIN_RCV, none)
      else if h.rst then (.FOUR_MIN, some .TCP_TRANS)
      else (.ESTABLISHED, some .TCP_EST)
  | .V6_FIN_RCV, h =>
      if h.fin then (.V6_FIN_V4_FIN, some .TCP_TRANS)
      else (.V6_FIN_RCV, some .TCP_EST)
  | .V4_FIN_RCV, _ => (.V4_FIN_RCV, some .TCP_EST)
  | .V6_FIN_V4_FIN, _ => (.V6_FIN_V4_FIN, none)

/-- Transition table of spec section 4.2, column for packets arriving from
the v6 side, written from the spec text row by row.  A row that names no
action for a flag combination leaves the state unchanged with no renewal. -/
def specFsmV6 : StateType → TcpHdr → StateType × Option ExpiryType
  | .CLOSED, h =>
      if h.syn then (.V6_SYN_RCV, some .TCP_TRANS) else (.CLOSED, none)
  | .V6_SYN_RCV, h =>
      if h.syn then (.V6_SYN_RCV, some .TCP_TRANS) else (.V6_SYN_RCV, none)
  | .V4_SYN_RCV, h =>
      if h.syn then (.ESTABLISHED, some .TCP_EST) else (.V4_SYN_RCV, none)
  | .FOUR_MIN, h =>
      if !h.rst then (.ESTABLISHED, some .TCP_EST) else (.FOUR_MIN, none)
  | .ESTABLISHED, h =>
      if h.fin then (.V6_FIN_RCV, none)
      else if h.rst then (.FOUR_MIN, some .TCP_TRANS)
      else (.ESTABLISHED, some .TCP_EST)
  | .V6_FIN_RCV, _ => (.V6_FIN_RCV, some .TCP_EST)
  | .V4_FIN_RCV, h =>
      if h.fin then (.V6_FIN_V4_FIN, some .TCP_TRANS)
      else (.V4_FIN_RCV, some .TCP_EST)
  | .V6_FIN_V4_FIN, _ => (.V6_FIN_V4_FIN, none)

/-- Transition table of spec section 4.2, column for packets arriving from
the v4 side, written from the spec text row by row. -/
def specFsmV4 : StateType → TcpHdr → StateType × Option ExpiryType
  | .CLOSED, _ => (.CLOSED, none)
  | .V6_SYN_RCV, h =>
      if h.syn then (.ESTABLISHED, some .TCP_EST) else (.V6_SYN_RCV, none)
  | .V4_SYN_RCV, _ => (.V4_SYN_RCV, none)
  | .FOUR_MIN, h =>
      if !h.rst then (.ESTABLISHED, some .TCP_EST) else (.FOUR_MIN, none)
  | .ESTABLISHED, h =>
      if h.fin then (.V4_FIN_RCV, none)
      else if h.rst then (.FOUR_MIN, some .TCP_TRANS)
      else (.ESTABLISHED, some .TCP_EST)
  | .V6_FIN_RCV, h =>
      if h.fin then (.V6_FIN_V4_FIN, some .TCP_TRANS)
      else (.V6_FIN_RCV, some .TCP_EST)
  | .V4_FIN_RCV, _ => (.V4_FIN_RCV, some .TCP_EST)
  | .V6_FIN_V4_FIN, _ => (.V6_FIN_V4_FIN, none)

/-- C1: for every session state and every combination of SYN/FIN/RST flags,
the next state and the renewal queue computed by tcp6_fsm and tcp4_fsm
coincide with the corresponding entry of the transition table of spec
section 4.2 (for the v6 and v4 columns respectively). -/
theorem tcp_fsm_realizes_spec_table :
    ∀ (st : StateType) (h : TcpHdr),
      tcp6_fsm st h = specFsmV6 st h ∧ tcp4_fsm st h = specFsmV4 st h := by
  intro st h
  obtain ⟨s, f, r⟩ := h
  cases st <;> cases s <;> cases f <;> cases r <;> exact ⟨rfl, rfl⟩

namespace Pool4

/-- Protocol numbers used by get_pool. -/
def IPPROTO_ICMP : Nat := 1

def IPPROTO_TCP : Nat := 6

def IPPROTO_UDP : Nat := 17

def IPPROTO_ICMPV6 : Nat := 58

/-- A range of ports within an address (struct addr_section); free_ports is
the FIFO of returned ports, head first. -/
structure AddrSection where
  next_port : Nat
  max_port : Nat
  free_ports : List Nat
deriving DecidableEq, Repr

/-- Names for the four sections of a pool node. -/
inductive SectionId
  | oddLow
  | evenLow
  | oddHigh
  | evenHigh
deriving DecidableEq, Repr

/-- An address within the pool, along with its ports (struct pool_node). -/
structure PoolNode where
  address : Nat
  odd_low : AddrSection
  even_low : AddrSection
  odd_high : AddrSection
  even_high : AddrSection
deriving DecidableEq, Repr

/-- Field selection on a pool node by section name. -/
def PoolNode.sec (n : PoolNode) : SectionId → AddrSection
  | .oddLow => n.odd_low
  | .evenLow => n.even_low
  | .oddHigh => n.odd_high
  | .evenHigh => n.even_high

/-- Field update on a pool node by section name. -/
def PoolNode.setSec (n : PoolNode) : SectionId → AddrSection → PoolNode
  | .oddLow, s => { n with odd_low := s }
  | .evenLow, s => { n with even_low := s }
  | .oddHigh, s => { n with odd_high := s }
  | .evenHigh, s => { n with even_high := s }

/-- An IPv4 transport address (struct ipv4_tuple_address): address and
layer-4 identifier (port), in host byte order. -/
structure TupleAddr where
  address : Nat
  l4_id : Nat
deriving DecidableEq, Repr

/-- The global container of the three protocol pools (static struct pools). -/
structure Pools where
  udp : List PoolNode
  tcp : List PoolNode
  icmp : List PoolNode
deriving DecidableEq, Repr

/-- Selector returned by get_pool. -/
inductive ProtoSel
  | udp
  | tcp
  | icmp
deriving DecidableEq, Repr

/-- get_pool: maps a layer-4 protocol number to one of the three pools;
unknown protocols yield none (the source logs and returns NULL). -/
def get_pool (l4protocol : Nat) : Option ProtoSel :=
  if l4protocol = IPPROTO_UDP then some .udp
  else if l4protocol = IPPROTO_TCP then some .tcp
  else if l4protocol = IPPROTO_ICMP then some .icmp
  else if l4protocol = IPPROTO_ICMPV6 then some .icmp
  else none

/-- Read the selected pool's node list. -/
def Pools.get (ps : Pools) : ProtoSel → List PoolNode
  | .udp => ps.udp
  | .tcp => ps.tcp
  | .icmp => ps.icmp

/-- Write the selected pool's node list. -/
def Pools.set (ps : Pools) : ProtoSel → List PoolNode → Pools
  | .udp, l => { ps with udp := l }
  | .tcp, l => { ps with tcp := l }
  | .icmp, l => { ps with icmp := l }

/-- get_pool_node: first node of the list with the given address. -/
def get_pool_node (pool : List PoolNode) (address : Nat) : Option PoolNode :=
  pool.find? (fun n => n.address == address)

/-- get_section: the source selects the section of a node by the parity and
range of address->l4_id; the node itself is irrelevant to the choice, so
the embedding returns the section name. -/
def get_section (l4_id : Nat) : SectionId :=
  if l4_id < 1024 then
    if l4_id % 2 = 0 then .evenLow else .oddLow
  else
    if l4_id % 2 = 0 then .evenHigh else .oddHigh

/-- extract_any_port: dequeue the head of free_ports when non-empty,
otherwise hand out next_port (advancing it by 2) unless the section is
exhausted. -/
def extract_any_port (s : AddrSection) : Option (Nat × AddrSection) :=
  match s.free_ports with
  | p :: rest => some (p, { s with free_ports := rest })
  | [] =>
      if s.next_port > s.max_port then none
      else some (s.next_port, { s with next_port := s.next_port + 2 })

/-- init_section. -/
def init_section (next_port max_port : Nat) : AddrSection :=
  { next_port := next_port, max_port := max_port, free_ports := [] }

/-- The pool node built for an address by pool4_register. -/
def newPoolNode (address : Nat) : PoolNode :=
  { address := address
    odd_low := init_section 1 1023
    even_low := init_section 0 1022
    odd_high := init_section 1025 65535
    even_high := init_section 1024 65534 }

/-- Response codes of the admin operations (enum response_code). -/
inductive ResponseCode
  | SUCCESS
  | ALLOC_FAILED
  | NOT_FOUND
  | MISSING_PARAM
deriving DecidableEq, Repr

/-- pool4_register: the source first allocates the three nodes (allocOk i
gives the outcome of the i-th kmalloc); only when all three succeed does it
touch any pool, appending one node to the tail of each of the tcp, udp and
icmp lists.  On any allocation failure the earlier nodes are released and
the pools are left untouched. -/
def pool4_register (ps : Pools) (address : Nat) (allocOk : Fin 3 → Bool) :
    ResponseCode × Pools :=
  if allocOk 0 && allocOk 1 && allocOk 2 then
    (.SUCCESS,
      { udp := ps.udp ++ [newPoolNode address]
        tcp := ps.tcp ++ [newPoolNode address]
        icmp := ps.icmp ++ [newPoolNode address] })
  else
    (.ALLOC_FAILED, ps)

/-- Remove the first node with the given address; none when absent. -/
def removeFirstNode : List PoolNode → Nat → Option (List PoolNode)
  | [], _ => none
  | n :: rest, a =>
      if n.address = a then some rest
      else (removeFirstNode rest a).map (fun l => n :: l)

/-- pool4_remove: destroys the node of the given address in each pool where
one exists (order tcp, udp, icmp as in the source array); reports NOT_FOUND
exactly when the deletion count is neither 0 nor 3. -/
def pool4_remove (ps : Pools) (address : Nat) : ResponseCode × Pools :=
  let rT := removeFirstNode ps.tcp address
  let rU := removeFirstNode ps.udp address
  let rI := removeFirstNode ps.icmp address
  let deleted := (if rT.isSome then 1 else 0) + (if rU.isSome then 1 else 0)
      + (if rI.isSome then 1 else 0)
  let ps' : Pools :=
    { udp := rU.getD ps.udp, tcp := rT.getD ps.tcp, icmp := rI.getD ps.icmp }
  if deleted ≠ 0 ∧ deleted ≠ 3 then (.NOT_FOUND, ps') else (.SUCCESS, ps')

/-- Walk of pool4_get_any over the node list: for each node take the section
matching the (host order) port and try to extract; first success wins and
yields the updated list. -/
def get_any_walk : List PoolNode → Nat → Option (TupleAddr × List PoolNode)
  | [], _ => none
  | n :: rest, hostPort =>
      let sid := get_section hostPort
      match extract_any_port (n.sec sid) with
      | some (p, s') =>
          some ({ address := n.address, l4_id := p }, n.setSec sid s' :: rest)
      | none =>
          match get_any_walk rest hostPort with
          | some (r, rest') => some (r, n :: rest')
          | none => none

/-- pool4_get_any: port arrives in network byte order and is converted with
be16_to_cpu (swap16 in the little-endian host model) before the section is
chosen. -/
def pool4_get_any (ps : Pools) (l4protocol : Nat) (port : Nat) :
    Option (TupleAddr × Pools) :=
  match get_pool l4protocol with
  | none => none
  | some sel =>
      if (ps.get sel).isEmpty then none
      else
        match get_any_walk (ps.get sel) (swap16 port) with
        | some (r, l') => some (r, ps.set sel l')
        | none => none

/-- Find the first node with the given address and rewrite it through f;
when f fails on that node the whole operation fails (the source does not
try later duplicates). -/
def updateNode {α : Type} :
    List PoolNode → Nat → (PoolNode → Option (α × PoolNode)) →
    Option (α × List PoolNode)
  | [], _, _ => none
  | n :: rest, a, f =>
      if n.address = a then
        match f n with
        | some (x, n') => some (x, n' :: rest)
        | none => none
      else
        match updateNode rest a f with
        | some (x, rest') => some (x, n :: rest')
        | none => none

/-- Per-node body of pool4_get_similar: extract from the section of the
request's own l4_id. -/
def similarNodeF (address : TupleAddr) (n : PoolNode) :
    Option (TupleAddr × PoolNode) :=
  (extract_any_port (n.sec (get_section address.l4_id))).map
    (fun pr => ({ address := address.address, l4_id := pr.1 },
      n.setSec (get_section address.l4_id) pr.2))

/-- pool4_get_similar: restricted to the node of the given address; takes
the section of the request's own l4_id and extracts from it. -/
def pool4_get_similar (ps : Pools) (l4protocol : Nat) (address : TupleAddr) :
    Option (TupleAddr × Pools) :=
  match get_pool l4protocol with
  | none => none
  | some sel =>
      match updateNode (ps.get sel) address.address (similarNodeF address) with
      | some (r, l') => some (r, ps.set sel l')
      | none => none

/-- Per-node body of pool4_return: append the port to the tail of the
free_ports FIFO of the section matching the port; next_port and max_port
stay untouched. -/
def returnNodeF (l4_id : Nat) (n : PoolNode) : Option (Unit × PoolNode) :=
  some ((),
    n.setSec (get_section l4_id)
      { next_port := (n.sec (get_section l4_id)).next_port
        max_port := (n.sec (get_section l4_id)).max_port
        free_ports := (n.sec (get_section l4_id)).free_ports ++ [l4_id] })

/-- pool4_return: appends the returned port to the tail of the free_ports
FIFO of the section matching the port itself; next_port is untouched.  The
free_port record allocation is modelled as succeeding (on failure the
source leaves the pool unchanged and fails, which the claims do not
exercise). -/
def pool4_return (ps : Pools) (l4protocol : Nat) (address : TupleAddr) :
    Bool × Pools :=
  match get_pool l4protocol with
  | none => (false, ps)
  | some sel =>
      match updateNode (ps.get sel) address.address (returnNodeF address.l4_id) with
      | some (_, l') => (true, ps.set sel l')
      | none => (false, ps)

/-- pool4_contains: consults only the UDP pool. -/
def pool4_contains (ps : Pools) (address : Nat) : Bool :=
  (get_pool_node ps.udp address).isSome

/-- Parity (0 even, 1 odd) of the ports a section is meant to hold. -/
def sidParity : SectionId → Nat
  | .oddLow => 1
  | .evenLow => 0
  | .oddHigh => 1
  | .evenHigh => 0

/-- Lower bound of the range of a section. -/
def sidBase : SectionId → Nat
  | .oddLow => 0
  | .evenLow => 0
  | .oddHigh => 1024
  | .evenHigh => 1024

/-- Upper bound (the registration-time max_port) of a section. -/
def sidMax : SectionId → Nat
  | .oddLow => 1023
  | .evenLow => 1022
  | .oddHigh => 65535
  | .evenHigh => 65534

/-- Invariant of one section: next_port has the section's parity and sits
above its base, max_port keeps its registration value, and every port of
the free FIFO classifies back into this very section. -/
def SectionInv (sid : SectionId) (s : AddrSection) : Prop :=
  s.next_port % 2 = sidParity sid ∧ sidBase sid ≤ s.next_port ∧
    s.max_port = sidMax sid ∧ ∀ p ∈ s.free_ports, get_section p = sid

/-- Invariant of a pool node: all four sections are well formed. -/
def NodeInv (n : PoolNode) : Prop := ∀ sid, SectionInv sid (n.sec sid)

/-- Invariant of one protocol pool. -/
def ListInv (l : List PoolNode) : Prop := ∀ n ∈ l, NodeInv n

/-- Invariant of the three pools. -/
def PoolsInv (ps : Pools) : Prop :=
  ListInv ps.udp ∧ ListInv ps.tcp ∧ ListInv ps.icmp

theorem get_section_of_class (sid : SectionId) (p : Nat)
    (hpar : p % 2 = sidParity sid) (hlo : sidBase sid ≤ p)
    (hhi : p ≤ sidMax sid) : get_section p = sid := by
  cases sid <;>
    simp only [sidParity, sidBase, sidMax] at hpar hlo hhi <;>
    unfold get_section <;>
    (repeat' split) <;> first | rfl | (exfalso; omega)

theorem get_section_class (p : Nat) :
    p % 2 = sidParity (get_section p) ∧
      (p < 1024 ↔ sidBase (get_section p) = 0) := by
  by_cases h1 : p < 1024 <;> by_cases h2 : p % 2 = 0 <;>
    simp [get_section, h1, h2, sidParity, sidBase] <;> omega

theorem get_section_parity_range {a b : Nat}
    (h : get_section a = get_section b) :
    a % 2 = b % 2 ∧ (a < 1024 ↔ b < 1024) := by
  obtain ⟨ha1, ha2⟩ := get_section_class a
  obtain ⟨hb1, hb2⟩ := get_section_class b
  rw [h] at ha1 ha2
  constructor
  · rw [ha1, hb1]
  · rw [ha2, hb2]

theorem extract_any_port_class {sid : SectionId} {s : AddrSection}
    {p : Nat} {s' : AddrSection} (hinv : SectionInv sid s)
    (h : extract_any_port s = some (p, s')) :
    get_section p = sid ∧ SectionInv sid s' := by
  obtain ⟨hpar, hlo, hmax, hfree⟩ := hinv
  cases hfp : s.free_ports with
  | cons q rest =>
      simp only [extract_any_port, hfp, Option.some.injEq, Prod.mk.injEq] at h
      obtain ⟨hq, hs'⟩ := h
      constructor
      · rw [← hq]
        exact hfree q (by rw [hfp]; exact List.mem_cons_self q rest)
      · rw [← hs']
        refine ⟨hpar, hlo, hmax, ?_⟩
        intro x hx
        exact hfree x (by rw [hfp]; exact List.mem_cons_of_mem q hx)
  | nil =>
      simp only [extract_any_port, hfp] at h
      split at h
      · exact Option.noConfusion h
      · rename_i hgt
        simp only [Option.some.injEq, Prod.mk.injEq] at h
        obtain ⟨hq, hs'⟩ := h
        constructor
        · rw [← hq]
          exact get_section_of_class sid s.next_port hpar hlo (by omega)
        · rw [← hs']
          refine ⟨?_, ?_, hmax, ?_⟩
          · show (s.next_port + 2) % 2 = sidParity sid
            omega
          · show sidBase sid ≤ s.next_port + 2
            omega
          · show ∀ x ∈ ([] : List Nat), get_section x = sid
            intro x hx
            exact absurd hx (List.not_mem_nil x)

theorem sec_setSec_same (n : PoolNode) (sid : SectionId) (s : AddrSection) :
    (n.setSec sid s).sec sid = s := by
  cases sid <;> rfl

theorem sec_setSec_ne (n : PoolNode) {sid sid' : SectionId} (s : AddrSection)
    (h : sid' ≠ sid) : (n.setSec sid s).sec sid' = n.sec sid' := by
  cases sid <;> cases sid' <;> first | (exact absurd rfl h) | rfl

theorem nodeInv_setSec {n : PoolNode} {sid : SectionId} {s' : AddrSection}
    (hn : NodeInv n) (hs : SectionInv sid s') : NodeInv (n.setSec sid s') := by
  intro sid'
  by_cases h : sid' = sid
  · subst h
    rw [sec_setSec_same]
    exact hs
  · rw [sec_setSec_ne _ _ h]
    exact hn sid'

theorem newPoolNode_inv (a : Nat) : NodeInv (newPoolNode a) := by
  intro sid
  cases sid <;> refine ⟨?_, ?_, ?_, ?_⟩
  all_goals
    first
      | exact rfl
      | exact Nat.zero_le _
      | exact Nat.le_succ 1024
      | exact Nat.le_refl 1024
      | (intro p hp; exact absurd hp (List.not_mem_nil p))
      | simp only [newPoolNode, PoolNode.sec, init_section, sidParity]

theorem listInv_cons {n : PoolNode} {l : List PoolNode}
    (h1 : NodeInv n) (h2 : ListInv l) : ListInv (n :: l) := by
  intro m hm
  rcases List.mem_cons.mp hm with h | h
  · exact h ▸ h1
  · exact h2 m h

theorem listInv_head {n : PoolNode} {l : List PoolNode}
    (h : ListInv (n :: l)) : NodeInv n :=
  h n (List.mem_cons_self n l)

theorem listInv_tail {n : PoolNode} {l : List PoolNode}
    (h : ListInv (n :: l)) : ListInv l :=
  fun m hm => h m (List.mem_cons_of_mem n hm)

theorem listInv_append_one {l : List PoolNode} {n : PoolNode}
    (h : ListInv l) (hn : NodeInv n) : ListInv (l ++ [n]) := by
  intro m hm
  rcases List.mem_append.mp hm with h' | h'
  · exact h m h'
  · rw [List.mem_singleton.mp h']
    exact hn

theorem get_any_walk_class :
    ∀ (l : List PoolNode) (hp : Nat) (r : TupleAddr) (l' : List PoolNode),
      ListInv l → get_any_walk l hp = some (r, l') →
      get_section r.l4_id = get_section hp ∧ ListInv l' := by
  intro l
  induction l with
  | nil =>
      intro hp r l' _ h
      exact Option.noConfusion h
  | cons n rest ih =>
      intro hp r l' hinv h
      cases hex : extract_any_port (n.sec (get_section hp)) with
      | some pr =>
          obtain ⟨p, s'⟩ := pr
          simp only [get_any_walk, hex, Option.some.injEq, Prod.mk.injEq] at h
          obtain ⟨hr, hl⟩ := h
          obtain ⟨hcls, hsinv⟩ :=
            extract_any_port_class (listInv_head hinv (get_section hp)) hex
          constructor
          · rw [← hr]
            exact hcls
          · rw [← hl]
            exact listInv_cons (nodeInv_setSec (listInv_head hinv) hsinv)
              (listInv_tail hinv)
      | none =>
          cases hw : get_any_walk rest hp with
          | none =>
              simp only [get_any_walk, hex, hw] at h
              exact Option.noConfusion h
          | some pr2 =>
              obtain ⟨r2, rest'⟩ := pr2
              simp only [get_any_walk, hex, hw, Option.some.injEq,
                Prod.mk.injEq] at h
              obtain ⟨hr, hl⟩ := h
              obtain ⟨hcls2, hinv2⟩ := ih hp r2 rest' (listInv_tail hinv) hw
              constructor
              · rw [← hr]
                exact hcls2
              · rw [← hl]
                exact listInv_cons (listInv_head hinv) hinv2

theorem updateNode_inv {α : Type} (Q : α → Prop)
    (f : PoolNode → Option (α × PoolNode))
    (hf : ∀ n x n', NodeInv n → f n = some (x, n') → Q x ∧ NodeInv n') :
    ∀ (l : List PoolNode) (a : Nat) (x : α) (l' : List PoolNode),
      ListInv l → updateNode l a f = some (x, l') → Q x ∧ ListInv l' := by
  intro l
  induction l with
  | nil =>
      intro a x l' _ h
      exact Option.noConfusion h
  | cons n rest ih =>
      intro a x l' hinv h
      simp only [updateNode] at h
      split at h
      · cases hf' : f n with
        | none =>
            rw [hf'] at h
            exact Option.noConfusion h
        | some pr =>
            obtain ⟨x0, n0⟩ := pr
            rw [hf'] at h
            simp only [Option.some.injEq, Prod.mk.injEq] at h
            obtain ⟨hx, hl⟩ := h
            obtain ⟨hq, hn0⟩ := hf n x0 n0 (listInv_head hinv) hf'
            exact ⟨hx ▸ hq, hl ▸ listInv_cons hn0 (listInv_tail hinv)⟩
      · cases hw : updateNode rest a f with
        | none =>
            rw [hw] at h
            exact Option.noConfusion h
        | some pr =>
            obtain ⟨x2, rest'⟩ := pr
            rw [hw] at h
            simp only [Option.some.injEq, Prod.mk.injEq] at h
            obtain ⟨hx, hl⟩ := h
            obtain ⟨hq, hinv'⟩ := ih a x2 rest' (listInv_tail hinv) hw
            exact ⟨hx ▸ hq, hl ▸ listInv_cons (listInv_head hinv) hinv'⟩

theorem poolsInv_get {ps : Pools} (h : PoolsInv ps) (sel : ProtoSel) :
    ListInv (ps.get sel) := by
  obtain ⟨h1, h2, h3⟩ := h
  cases sel <;> assumption

theorem poolsInv_set {ps : Pools} {l : List PoolNode} (h : PoolsInv ps)
    (hl : ListInv l) (sel : ProtoSel) : PoolsInv (ps.set sel l) := by
  obtain ⟨h1, h2, h3⟩ := h
  cases sel
  · exact ⟨hl, h2, h3⟩
  · exact ⟨h1, hl, h3⟩
  · exact ⟨h1, h2, hl⟩

/-- Pool states reachable from the empty pools by registering addresses,
drawing ports through pool4_get_any or pool4_get_similar, and returning
ports through pool4_return. -/
inductive Reachable : Pools → Prop
  | init : Reachable { udp := [], tcp := [], icmp := [] }
  | register (ps : Pools) (a : Nat) (ok : Fin 3 → Bool) (c : ResponseCode)
      (ps' : Pools) : Reachable ps →
      pool4_register ps a ok = (c, ps') → Reachable ps'
  | get_any (ps : Pools) (proto port : Nat) (r : TupleAddr) (ps' : Pools) :
      Reachable ps → pool4_get_any ps proto port = some (r, ps') →
      Reachable ps'
  | get_similar (ps : Pools) (proto : Nat) (a r : TupleAddr) (ps' : Pools) :
      Reachable ps → pool4_get_similar ps proto a = some (r, ps') →
      Reachable ps'
  | ret (ps : Pools) (proto : Nat) (a : TupleAddr) (b : Bool) (ps' : Pools) :
      Reachable ps → pool4_return ps proto a = (b, ps') → Reachable ps'

theorem pool4_get_any_inv {ps : Pools} {proto port : Nat} {r : TupleAddr}
    {ps' : Pools} (hinv : PoolsInv ps)
    (h : pool4_get_any ps proto port = some (r, ps')) :
    (get_section r.l4_id = get_section (swap16 port)) ∧ PoolsInv ps' := by
  cases hgp : get_pool proto with
  | none =>
      simp only [pool4_get_any, hgp] at h
      exact Option.noConfusion h
  | some sel =>
      simp only [pool4_get_any, hgp] at h
      split at h
      · exact Option.noConfusion h
      · cases hw : get_any_walk (ps.get sel) (swap16 port) with
        | none =>
            rw [hw] at h
            exact Option.noConfusion h
        | some pr =>
            obtain ⟨r0, l'⟩ := pr
            rw [hw] at h
            simp only [Option.some.injEq, Prod.mk.injEq] at h
            obtain ⟨hr, hps⟩ := h
            obtain ⟨hcls, hl⟩ :=
              get_any_walk_class (ps.get sel) (swap16 port) r0 l'
                (poolsInv_get hinv sel) hw
            exact ⟨hr ▸ hcls, hps ▸ poolsInv_set hinv hl sel⟩

theorem similarNodeF_class {a : TupleAddr} {n : PoolNode} {x : TupleAddr}
    {n' : PoolNode} (hn : NodeInv n) (hf : similarNodeF a n = some (x, n')) :
    (get_section x.l4_id = get_section a.l4_id) ∧ NodeInv n' := by
  cases hex : extract_any_port (n.sec (get_section a.l4_id)) with
  | none =>
      rw [similarNodeF, hex] at hf
      exact Option.noConfusion hf
  | some pr2 =>
      obtain ⟨p, s'⟩ := pr2
      rw [similarNodeF, hex] at hf
      simp only [Option.map_some', Option.some.injEq, Prod.mk.injEq] at hf
      obtain ⟨hx, hn'⟩ := hf
      obtain ⟨hcls, hsinv⟩ :=
        extract_any_port_class (hn (get_section a.l4_id)) hex
      constructor
      · rw [← hx]
        exact hcls
      · rw [← hn']
        exact nodeInv_setSec hn hsinv

theorem pool4_get_similar_inv {ps : Pools} {proto : Nat} {a r : TupleAddr}
    {ps' : Pools} (hinv : PoolsInv ps)
    (h : pool4_get_similar ps proto a = some (r, ps')) :
    (get_section r.l4_id = get_section a.l4_id) ∧ PoolsInv ps' := by
  cases hgp : get_pool proto with
  | none =>
      simp only [pool4_get_similar, hgp] at h
      exact Option.noConfusion h
  | some sel =>
      simp only [pool4_get_similar, hgp] at h
      cases hu : updateNode (ps.get sel) a.address (similarNodeF a) with
      | none =>
          rw [hu] at h
          exact Option.noConfusion h
      | some pr =>
          obtain ⟨r0, l'⟩ := pr
          rw [hu] at h
          simp only [Option.some.injEq, Prod.mk.injEq] at h
          obtain ⟨hr, hps⟩ := h
          have hstep := updateNode_inv
            (fun x : TupleAddr => get_section x.l4_id = get_section a.l4_id)
            (similarNodeF a)
            (fun n x n' hn hf => similarNodeF_class hn hf)
            (ps.get sel) a.address r0 l' (poolsInv_get hinv sel) hu
          exact ⟨hr ▸ hstep.1, hps ▸ poolsInv_set hinv hstep.2 sel⟩

theorem returnNodeF_inv {l4 : Nat} {n : PoolNode} {x : Unit} {n' : PoolNode}
    (hn : NodeInv n) (hf : returnNodeF l4 n = some (x, n')) :
    True ∧ NodeInv n' := by
  simp only [returnNodeF, Option.some.injEq, Prod.mk.injEq] at hf
  obtain ⟨hx, hn'⟩ := hf
  refine ⟨trivial, ?_⟩
  rw [← hn']
  refine nodeInv_setSec hn ?_
  obtain ⟨hpar, hlo, hmax, hfree⟩ := hn (get_section l4)
  refine ⟨hpar, hlo, hmax, ?_⟩
  intro p hp
  rcases List.mem_append.mp hp with h' | h'
  · exact hfree p h'
  · rw [List.mem_singleton.mp h']

theorem pool4_return_inv {ps : Pools} {proto : Nat} {a : TupleAddr}
    {b : Bool} {ps' : Pools} (hinv : PoolsInv ps)
    (h : pool4_return ps proto a = (b, ps')) : PoolsInv ps' := by
  cases hgp : get_pool proto with
  | none =>
      simp only [pool4_return, hgp, Prod.mk.injEq] at h
      exact h.2 ▸ hinv
  | some sel =>
      simp only [pool4_return, hgp] at h
      cases hu : updateNode (ps.get sel) a.address (returnNodeF a.l4_id) with
      | none =>
          rw [hu] at h
          simp only [Prod.mk.injEq] at h
          exact h.2 ▸ hinv
      | some pr =>
          obtain ⟨u, l'⟩ := pr
          rw [hu] at h
          simp only [Prod.mk.injEq] at h
          have hstep := updateNode_inv (fun _ : Unit => True)
            (returnNodeF a.l4_id)
            (fun n x n' hn hf => returnNodeF_inv hn hf)
            (ps.get sel) a.address u l' (poolsInv_get hinv sel) hu
          exact h.2 ▸ poolsInv_set hinv hstep.2 sel

theorem pool4_register_inv {ps : Pools} {a : Nat} {ok : Fin 3 → Bool}
    {c : ResponseCode} {ps' : Pools} (hinv : PoolsInv ps)
    (h : pool4_register ps a ok = (c, ps')) : PoolsInv ps' := by
  obtain ⟨h1, h2, h3⟩ := hinv
  rw [pool4_register] at h
  split at h
  · cases h
    exact ⟨listInv_append_one h1 (newPoolNode_inv a),
      listInv_append_one h2 (newPoolNode_inv a),
      listInv_append_one h3 (newPoolNode_inv a)⟩
  · cases h
    exact ⟨h1, h2, h3⟩

/-- Every reachable pool state satisfies the section invariant. -/
theorem reachable_inv {ps : Pools} (h : Reachable ps) : PoolsInv ps := by
  induction h with
  | init =>
      refine ⟨?_, ?_, ?_⟩ <;> intro n hn <;> exact absurd hn (List.not_mem_nil n)
  | register ps a ok c ps' _ hstep ih => exact pool4_register_inv ih hstep
  | get_any ps proto port r ps' _ hstep ih =>
      exact (pool4_get_any_inv ih hstep).2
  | get_similar ps proto a r ps' _ hstep ih =>
      exact (pool4_get_similar_inv ih hstep).2
  | ret ps proto a b ps' _ hstep ih => exact pool4_return_inv ih hstep

/-- C2: in every pool state reachable by registering addresses, extracting
ports via pool4_get_any or pool4_get_similar and returning ports via
pool4_return, a successful pool4_get_any yields a transport address whose
port has the same parity and the same low/high range (below 1024 versus
1024 and above) as the requested source port interpreted in host byte
order (be16_to_cpu, modelled by swap16). -/
theorem pool4_get_any_preserves_parity_and_range
    (ps : Pools) (proto port : Nat) (r : TupleAddr) (ps' : Pools)
    (hre : Reachable ps) (h : pool4_get_any ps proto port = some (r, ps')) :
    r.l4_id % 2 = swap16 port % 2 ∧ (r.l4_id < 1024 ↔ swap16 port < 1024) :=
  get_section_parity_range (pool4_get_any_inv (reachable_inv hre) h).1

/-- Witness for C2: from the empty pools register address 1, then draw a
port for the network-order port 16540 (host order 40000, even and high);
the drawn port 1024 is even and high as well. -/
theorem pool4_get_any_preserves_parity_and_range_witness :
    (1024 % 2 = swap16 16540 % 2) ∧ (1024 < 1024 ↔ swap16 16540 < 1024) :=
  pool4_get_any_preserves_parity_and_range
    { udp := [newPoolNode 1], tcp := [newPoolNode 1], icmp := [newPoolNode 1] }
    IPPROTO_UDP 16540 { address := 1, l4_id := 1024 }
    { udp := [(newPoolNode 1).setSec .evenHigh (init_section 1026 65534)]
      tcp := [newPoolNode 1], icmp := [newPoolNode 1] }
    (Reachable.register { udp := [], tcp := [], icmp := [] } 1 (fun _ => true)
      .SUCCESS _ Reachable.init (by decide))
    (by decide)

/-- The node rewrite performed by a successful pool4_return: the port goes
to the tail of the free FIFO of the section matching the port. -/
def return_to_node (l4_id : Nat) (n : PoolNode) : PoolNode :=
  n.setSec (get_section l4_id)
    { next_port := (n.sec (get_section l4_id)).next_port
      max_port := (n.sec (get_section l4_id)).max_port
      free_ports := (n.sec (get_section l4_id)).free_ports ++ [l4_id] }

/-- Total rewrite of the first node carrying a given address. -/
def mapFirstNode : List PoolNode → Nat → (PoolNode → PoolNode) → List PoolNode
  | [], _, _ => []
  | n :: rest, a, f =>
      if n.address = a then f n :: rest else n :: mapFirstNode rest a f

theorem returnNodeF_eq (l4 : Nat) (n : PoolNode) :
    returnNodeF l4 n = some ((), return_to_node l4 n) := rfl

theorem get_pool_node_cons (n : PoolNode) (rest : List PoolNode) (a : Nat) :
    get_pool_node (n :: rest) a =
      if n.address = a then some n else get_pool_node rest a := by
  by_cases ha : n.address = a
  · simp only [get_pool_node]
    rw [List.find?_cons_of_pos _ (by simp [ha]), if_pos ha]
  · simp only [get_pool_node]
    rw [List.find?_cons_of_neg _ (by simp [ha]), if_neg ha]

theorem updateNode_returnNodeF (l4 : Nat) :
    ∀ (l : List PoolNode) (a : Nat),
      updateNode l a (returnNodeF l4) =
        if (get_pool_node l a).isSome then
          some ((), mapFirstNode l a (return_to_node l4))
        else none := by
  intro l
  induction l with
  | nil => intro a; rfl
  | cons n rest ih =>
      intro a
      by_cases ha : n.address = a
      · simp [updateNode, ha, returnNodeF_eq, mapFirstNode, get_pool_node_cons]
      · by_cases hr : (get_pool_node rest a).isSome
        · simp [updateNode, ha, mapFirstNode, get_pool_node_cons, ih a, hr]
        · simp [updateNode, ha, mapFirstNode, get_pool_node_cons, ih a, hr]

/-- C5: extract_any_port dequeues the head of the free FIFO when non-empty,
otherwise hands out next_port and advances it by 2 when next_port is at
most max_port, otherwise fails; and pool4_return appends the returned port
to the tail of the free FIFO of the section matching the port's parity and
range, leaving every next_port untouched. -/
theorem extract_and_return_discipline :
    (∀ (s : AddrSection) (p : Nat) (rest : List Nat),
        s.free_ports = p :: rest →
        extract_any_port s = some (p, { s with free_ports := rest })) ∧
    (∀ s : AddrSection, s.free_ports = [] → s.next_port ≤ s.max_port →
        extract_any_port s =
          some (s.next_port, { s with next_port := s.next_port + 2 })) ∧
    (∀ s : AddrSection, s.free_ports = [] → s.max_port < s.next_port →
        extract_any_port s = none) ∧
    (∀ (ps : Pools) (proto : Nat) (sel : ProtoSel) (a : TupleAddr),
        get_pool proto = some sel →
        (get_pool_node (ps.get sel) a.address).isSome = true →
        pool4_return ps proto a =
          (true,
            ps.set sel
              (mapFirstNode (ps.get sel) a.address (return_to_node a.l4_id)))) ∧
    (∀ (l4 : Nat) (n : PoolNode),
        ((return_to_node l4 n).sec (get_section l4)).free_ports
            = (n.sec (get_section l4)).free_ports ++ [l4] ∧
        ((return_to_node l4 n).sec (get_section l4)).next_port
            = (n.sec (get_section l4)).next_port ∧
        l4 % 2 = sidParity (get_section l4) ∧
        (l4 < 1024 ↔ sidBase (get_section l4) = 0)) := by
  refine ⟨?_, ?_, ?_, ?_, ?_⟩
  · intro s p rest hfp
    simp [extract_any_port, hfp]
  · intro s hfp hle
    simp [extract_any_port, hfp]
    omega
  · intro s hfp hgt
    simp [extract_any_port, hfp]
    omega
  · intro ps proto sel a hgp hsome
    simp only [pool4_return, hgp, updateNode_returnNodeF, hsome, if_true]
  · intro l4 n
    rw [return_to_node, sec_setSec_same]
    exact ⟨rfl, rfl, (get_section_class l4).1, (get_section_class l4).2⟩

/-- Witness for C5: a section with free FIFO [3] hands out 3; an exhausted
even-low section with next_port 1024 fails; returning port 2000 to a pool
holding address 9 appends it to the even-high FIFO. -/
theorem extract_and_return_discipline_witness :
    extract_any_port { next_port := 1025, max_port := 65535, free_ports := [3] }
        = some (3, { next_port := 1025, max_port := 65535, free_ports := [] }) ∧
    extract_any_port { next_port := 1024, max_port := 1022, free_ports := [] }
        = none ∧
    pool4_return
        { udp := [newPoolNode 9], tcp := [newPoolNode 9], icmp := [newPoolNode 9] }
        IPPROTO_TCP { address := 9, l4_id := 2000 }
      = (true,
          Pools.set
            { udp := [newPoolNode 9], tcp := [newPoolNode 9], icmp := [newPoolNode 9] }
            .tcp
            (mapFirstNode [newPoolNode 9] 9 (return_to_node 2000))) :=
  ⟨extract_and_return_discipline.1
      { next_port := 1025, max_port := 65535, free_ports := [3] } 3 [] rfl,
    extract_and_return_discipline.2.2.1
      { next_port := 1024, max_port := 1022, free_ports := [] } rfl
      (by decide),
    extract_and_return_discipline.2.2.2.1
      { udp := [newPoolNode 9], tcp := [newPoolNode 9], icmp := [newPoolNode 9] }
      IPPROTO_TCP .tcp { address := 9, l4_id := 2000 } (by decide) (by decide)⟩

/-- C6: pool4_register either succeeds, appending a node with the canonical
section bounds to each of the three pools, or any kmalloc failure makes it
return ALLOC_FAILED with all three pools exactly as they were. -/
theorem pool4_register_all_or_nothing (ps : Pools) (a : Nat)
    (ok : Fin 3 → Bool) :
    (newPoolNode a =
      { address := a
        odd_low := { next_port := 1, max_port := 1023, free_ports := [] }
        even_low := { next_port := 0, max_port := 1022, free_ports := [] }
        odd_high := { next_port := 1025, max_port := 65535, free_ports := [] }
        even_high := { next_port := 1024, max_port := 65534, free_ports := [] } }) ∧
    ((ok 0 && ok 1 && ok 2) = true →
        pool4_register ps a ok =
          (.SUCCESS,
            { udp := ps.udp ++ [newPoolNode a]
              tcp := ps.tcp ++ [newPoolNode a]
              icmp := ps.icmp ++ [newPoolNode a] })) ∧
    ((ok 0 && ok 1 && ok 2) ≠ true →
        pool4_register ps a ok = (.ALLOC_FAILED, ps)) := by
  refine ⟨rfl, ?_, ?_⟩
  · intro h
    simp [pool4_register, h]
  · intro h
    simp [pool4_register, h]

/-- Witness for C6: registering address 7 into empty pools with all three
allocations succeeding adds the node to all three pools. -/
theorem pool4_register_all_or_nothing_witness :
    pool4_register { udp := [], tcp := [], icmp := [] } 7 (fun _ => true) =
      (.SUCCESS,
        { udp := [newPoolNode 7], tcp := [newPoolNode 7],
          icmp := [newPoolNode 7] }) :=
  (pool4_register_all_or_nothing
    { udp := [], tcp := [], icmp := [] } 7 (fun _ => true)).2.1 (by decide)

/-- Membership count of an address over the three pools. -/
def containCount (ps : Pools) (a : Nat) : Nat :=
  (if (get_pool_node ps.tcp a).isSome then 1 else 0) +
    (if (get_pool_node ps.udp a).isSome then 1 else 0) +
    (if (get_pool_node ps.icmp a).isSome then 1 else 0)

theorem removeFirst_isSome_eq (l : List PoolNode) (a : Nat) :
    (removeFirstNode l a).isSome = (get_pool_node l a).isSome := by
  induction l with
  | nil => rfl
  | cons n rest ih =>
      by_cases ha : n.address = a
      · simp [removeFirstNode, ha, get_pool_node_cons]
      · simp [removeFirstNode, ha, get_pool_node_cons, ih]

theorem ite_nf_iff (C : Prop) [Decidable C] :
    ((if C then ResponseCode.NOT_FOUND else ResponseCode.SUCCESS)
        = ResponseCode.NOT_FOUND) ↔ C := by
  by_cases h : C
  · simp [h]
  · simp [h]

/-- C8 counterexample: with the address present in none of the three pools,
pool4_remove returns SUCCESS, not the NOT_FOUND that the claim demands for
an address missing from at least one pool. -/
theorem pool4_remove_absent_returns_success :
    pool4_remove { udp := [], tcp := [], icmp := [] } 5
        = (.SUCCESS, { udp := [], tcp := [], icmp := [] }) ∧
      ResponseCode.SUCCESS ≠ ResponseCode.NOT_FOUND := by
  exact ⟨rfl, by decide⟩

/-- C8 amended: pool4_remove removes the address from every pool containing
it; it returns NOT_FOUND (with a crit log) exactly when the address is
present in some but not all three pools; when present in none, or removed
from all three, it returns success. -/
theorem pool4_remove_partial_inconsistency (ps : Pools) (a : Nat) :
    ((pool4_remove ps a).1 = .NOT_FOUND ↔
        containCount ps a ≠ 0 ∧ containCount ps a ≠ 3) ∧
    (pool4_remove ps a).2 =
      { udp := (removeFirstNode ps.udp a).getD ps.udp
        tcp := (removeFirstNode ps.tcp a).getD ps.tcp
        icmp := (removeFirstNode ps.icmp a).getD ps.icmp } := by
  constructor
  · simp only [pool4_remove, containCount, ← removeFirst_isSome_eq,
      apply_ite Prod.fst]
    exact ite_nf_iff _
  · simp only [pool4_remove, apply_ite Prod.snd, ite_self]

/-- C10: pool4_contains consults only the UDP pool: it equals membership of
the address in the UDP node list, it is insensitive to the TCP and ICMP
pools, and an address present only in the TCP and ICMP pools is reported
absent. -/
theorem pool4_contains_udp_only :
    (∀ (ps : Pools) (a : Nat),
        pool4_contains ps a = (get_pool_node ps.udp a).isSome) ∧
    (∀ (u t i t2 i2 : List PoolNode) (a : Nat),
        pool4_contains { udp := u, tcp := t, icmp := i } a
          = pool4_contains { udp := u, tcp := t2, icmp := i2 } a) ∧
    (∀ a : Nat,
        pool4_contains
          { udp := [], tcp := [newPoolNode a], icmp := [newPoolNode a] } a
          = false) :=
  ⟨fun _ _ => rfl, fun _ _ _ _ _ _ => rfl, fun _ => rfl⟩

end Pool4

namespace DB

/-- Error number ESRCH. -/
def ESRCH : Int := 3

/-- C conversion of an int into a bool: any nonzero value becomes true. -/
def intToBool (i : Int) : Bool := decide (i ≠ 0)

/-- hash_32 of the kernel: golden-ratio multiplicative hash on 32 bits,
keeping the top bits. -/
def hash_32 (val bits : Nat) : Nat :=
  (val * 0x9e370001) % 2 ^ 32 / 2 ^ (32 - bits)

/-- An IPv4 transport address (struct ipv4_transport_addr). -/
structure TransportAddr where
  addr : Nat
  port : Nat
deriving DecidableEq, Repr

/-- A pool4 table: its mark and its samples.  The sample machinery lives in
pool4/table.c, which is not among the sources; only membership matters
here, so the table carries the list of transport addresses it holds. -/
structure Pool4Table where
  mark : Nat
  contents : List TransportAddr
deriving DecidableEq, Repr

/-- Modelled from the spec: pool4table_contains (its body is in the missing
pool4/table.c) decides whether the table holds the given address. -/
def pool4table_contains (t : Pool4Table) (a : TransportAddr) : Bool :=
  t.contents.contains a

/-- The hash table of pool4 tables, 2 to the power buckets. -/
structure Database where
  power : Nat
  buckets : List (List Pool4Table)
deriving DecidableEq, Repr

/-- find_table: searches the bucket of hash_32(mark, power) for a table
carrying the given mark. -/
def find_table (db : Database) (mark : Nat) : Option Pool4Table :=
  (db.buckets.getD (hash_32 mark db.power) []).find? (fun t => t.mark == mark)

/-- pool4db_contains: the source stores the outcome in an int, writing
-ESRCH when find_table locates no table, and returns that int as the bool
result. -/
def pool4db_contains (db : Database) (mark : Nat) (a : TransportAddr) :
    Bool :=
  let error : Int :=
    match find_table db mark with
    | some t => if pool4table_contains t a then 1 else 0
    | none => -ESRCH
  intToBool error

/-- C9: whenever find_table locates no table for the mark, pool4db_contains
returns true for every address, because the stored -ESRCH is nonzero and
converts to true; the predicate cannot distinguish a present address from
an unknown mark. -/
theorem pool4db_contains_unknown_mark_true (db : Database) (mark : Nat)
    (a : TransportAddr) (h : find_table db mark = none) :
    pool4db_contains db mark a = true := by
  simp [pool4db_contains, h, intToBool, ESRCH]

/-- Witness for C9: an empty 16-bucket database holds no table for mark 0,
yet pool4db_contains answers true for an arbitrary address. -/
theorem pool4db_contains_unknown_mark_true_witness :
    pool4db_contains { power := 4, buckets := List.replicate 16 [] } 0
        { addr := 1, port := 2 } = true :=
  pool4db_contains_unknown_mark_true
    { power := 4, buckets := List.replicate 16 [] } 0
    { addr := 1, port := 2 } (by decide)

end DB

namespace FU

/-- Scheduler tick rate: jiffies advance HZ times a second. -/
def HZ : Nat := 100

/-- An IPv6 address as its four 32-bit words (struct in6_addr). -/
structure In6Addr where
  w0 : Nat
  w1 : Nat
  w2 : Nat
  w3 : Nat
deriving DecidableEq, Repr

/-- nat64_hash4: the port itself. -/
def nat64_hash4 (addr port : Nat) : Nat := port

/-- nat64_hash6: xor of the last three address words folded with the port,
truncated to 16 bits as the source returns a __be16. -/
def nat64_hash6 (a : In6Addr) (port : Nat) : Nat :=
  let addr4 := (a.w1 ^^^ a.w2 ^^^ a.w3) % 2 ^ 32
  ((addr4 / 2 ^ 16) ^^^ addr4 ^^^ port) % 2 ^ 16

/-- A session-table entry (struct nat64_st_entry); the byexpiry and list
hooks are modelled by membership of the session's id in the expiry queues
and in the owning BIB's session list. -/
structure STEntry where
  remote6_addr : In6Addr
  embedded6_addr : In6Addr
  expires : Nat
  state : StateType
  local4_addr : Nat
  remote4_addr : Nat
  remote6_port : Nat
  embedded6_port : Nat
  remote4_port : Nat
  local4_port : Nat
deriving DecidableEq, Repr

/-- A BIB entry (struct nat64_bib_entry); the byremote and bylocal hooks
are modelled by entries in the hash6 and hash4 association lists, and the
sessions list holds the ids of the sessions hanging off this BIB. -/
structure BibEntry where
  btype : Nat
  remote6_addr : In6Addr
  local4_addr : Nat
  remote6_port : Nat
  local4_port : Nat
  sessions : List Nat
deriving DecidableEq, Repr

/-- One expiry queue (struct expiry_q): its timeout in seconds and the ids
of the sessions on it, head first. -/
structure ExpiryQ where
  timeout : Nat
  queue : List Nat
deriving DecidableEq, Repr

/-- The five expiry queues (expiry_base array). -/
structure ExpiryBase where
  udp_default : ExpiryQ
  tcp_trans : ExpiryQ
  tcp_est : ExpiryQ
  tcp_incoming_syn : ExpiryQ
  icmp_default : ExpiryQ
deriving DecidableEq, Repr

/-- Queue selection by expiry type. -/
def ExpiryBase.get (eb : ExpiryBase) : ExpiryType → ExpiryQ
  | .UDP_DEFAULT => eb.udp_default
  | .TCP_TRANS => eb.tcp_trans
  | .TCP_EST => eb.tcp_est
  | .TCP_INCOMING_SYN => eb.tcp_incoming_syn
  | .ICMP_DEFAULT => eb.icmp_default

/-- Queue update by expiry type. -/
def ExpiryBase.set (eb : ExpiryBase) : ExpiryType → ExpiryQ → ExpiryBase
  | .UDP_DEFAULT, q => { eb with udp_default := q }
  | .TCP_TRANS, q => { eb with tcp_trans := q }
  | .TCP_EST, q => { eb with tcp_est := q }
  | .TCP_INCOMING_SYN, q => { eb with tcp_incoming_syn := q }
  | .ICMP_DEFAULT, q => { eb with icmp_default := q }

/-- Unlinking a session from its expiry hook (list_del of byexpiry): the id
disappears from whichever queue holds it. -/
def ExpiryBase.eraseSid (eb : ExpiryBase) (sid : Nat) : ExpiryBase :=
  { udp_default := { eb.udp_default with queue := eb.udp_default.queue.erase sid }
    tcp_trans := { eb.tcp_trans with queue := eb.tcp_trans.queue.erase sid }
    tcp_est := { eb.tcp_est with queue := eb.tcp_est.queue.erase sid }
    tcp_incoming_syn :=
      { eb.tcp_incoming_syn with queue := eb.tcp_incoming_syn.queue.erase sid }
    icmp_default :=
      { eb.icmp_default with queue := eb.icmp_default.queue.erase sid } }

/-- Lookup in an association list keyed by ids. -/
def lookupA {α : Type} (l : List (Nat × α)) (k : Nat) : Option α :=
  (l.find? (fun e => e.1 == k)).map (fun e => e.2)

/-- Rewrite of the first entry with the given key. -/
def updA {α : Type} : List (Nat × α) → Nat → (α → α) → List (Nat × α)
  | [], _, _ => []
  | e :: rest, k, f =>
      if e.1 = k then (e.1, f e.2) :: rest else e :: updA rest k f

/-- Removal of the first entry with the given key. -/
def delA {α : Type} : List (Nat × α) → Nat → List (Nat × α)
  | [], _ => []
  | e :: rest, k => if e.1 = k then rest else e :: delA rest k

/-- The mutable state of the filtering-and-updating module: the clock, the
expiry queues, the session and BIB heaps keyed by id, the two BIB hash
indices as association lists of (bucket, bib id), the free transport
address FIFO of nf_nat64_ipv4_pool.h, and the pool4.c pools (which this
module never touches). -/
structure GState where
  jiffies : Nat
  expiry_base : ExpiryBase
  sessions : List (Nat × STEntry)
  bibs : List (Nat × BibEntry)
  hash6 : List (Nat × Nat)
  hash4 : List (Nat × Nat)
  free_transport : List (Nat × Nat)
  pool : Pool4.Pools
  next_id : Nat
deriving DecidableEq, Repr

/-- session_renew: unlink from the current expiry queue, reset the deadline
to now plus the queue's timeout, and append to the tail of the target
queue. -/
def session_renew (sid : Nat) (t : ExpiryType) (g : GState) : GState :=
  let eb := g.expiry_base.eraseSid sid
  { g with
    expiry_base := eb.set t { eb.get t with queue := (eb.get t).queue ++ [sid] }
    sessions := updA g.sessions sid
      (fun s => { s with
        expires := g.jiffies + (g.expiry_base.get t).timeout * HZ }) }

/-- tcp_timeout_fsm: an expired ESTABLISHED session is renewed on TCP_TRANS
and demoted to FOUR_MIN, returning 1; any other state returns 0 with no
change. -/
def tcp_timeout_fsm (sid : Nat) (g : GState) : Bool × GState :=
  match lookupA g.sessions sid with
  | none => (false, g)
  | some s =>
      if s.state = .ESTABLISHED then
        (true,
          let g1 := session_renew sid .TCP_TRANS g
          { g1 with
            sessions := updA g1.sessions sid
              (fun s0 => { s0 with state := .FOUR_MIN }) })
      else (false, g)

/-- The BIB owning a session, recovered through the session list links. -/
def findBibOf (g : GState) (sid : Nat) : Option (Nat × BibEntry) :=
  g.bibs.find? (fun e => e.2.sessions.contains sid)

/-- The removal path of clean_expired_sessions for one expired session that
was granted no grace: unlink it from the walked queue and from its BIB's
session list; when that list becomes empty the BIB is detached from both
hash indices and freed; finally the session is freed.  No transport
address is handed back to any pool. -/
def reap_free (sid : Nat) (t : ExpiryType) (g : GState) : GState :=
  let g1 := { g with
    expiry_base := g.expiry_base.set t
      { g.expiry_base.get t with
        queue := (g.expiry_base.get t).queue.erase sid } }
  match findBibOf g1 sid with
  | none => { g1 with sessions := delA g1.sessions sid }
  | some (bid, b) =>
      let b' := { b with sessions := b.sessions.erase sid }
      if b'.sessions.isEmpty then
        { g1 with
          sessions := delA g1.sessions sid
          bibs := delA g1.bibs bid
          hash6 := g1.hash6.filter (fun e => e.2 != bid)
          hash4 := g1.hash4.filter (fun e => e.2 != bid) }
      else
        { g1 with
          sessions := delA g1.sessions sid
          bibs := updA g1.bibs bid (fun _ => b') }

/-- time_after(a, b): b is strictly in a's past. -/
def time_after (a b : Nat) : Bool := decide (b < a)

/-- The walk of clean_expired_sessions over the ids of one expiry queue:
each expired head is either granted grace by tcp_timeout_fsm or reaped;
the first non-expired session stops the walk. -/
def clean_walk : List Nat → ExpiryType → GState → GState
  | [], _, g => g
  | sid :: rest, t, g =>
      match lookupA g.sessions sid with
      | none => clean_walk rest t g
      | some s =>
          if time_after g.jiffies s.expires then
            if (tcp_timeout_fsm sid g).1 then
              clean_walk rest t (tcp_timeout_fsm sid g).2
            else
              clean_walk rest t (reap_free sid t g)
          else g

/-- clean_expired_sessions on the queue of the given expiry type. -/
def clean_expired_sessions (t : ExpiryType) (g : GState) : GState :=
  clean_walk (g.expiry_base.get t).queue t g

/-- ntohs in the little-endian host model. -/
def ntohs (p : Nat) : Nat := swap16 p

/-- Modelled from the spec: get_tranport_addr (nf_nat64_ipv4_pool.h is not
among the sources) dequeues the head of the free transport-address FIFO,
returning NULL when the pool is exhausted. -/
def get_tranport_addr :
    List (Nat × Nat) → Option ((Nat × Nat) × List (Nat × Nat))
  | [] => none
  | ta :: rest => some (ta, rest)

/-- bib_create: fills a BIB entry with an empty session list; allocOk is
the outcome of the kmem_cache_zalloc call. -/
def bib_create (remote6_addr : In6Addr)
    (remote6_port local4_addr local4_port btype : Nat) (allocOk : Bool) :
    Option BibEntry :=
  if allocOk then
    some { btype := btype
           remote6_addr := remote6_addr
           local4_addr := local4_addr
           remote6_port := remote6_port
           local4_port := local4_port
           sessions := [] }
  else none

/-- bib_create_tcp: same as bib_create, drawing from the TCP cache. -/
def bib_create_tcp (remote6_addr : In6Addr)
    (remote6_port local4_addr local4_port btype : Nat) (allocOk : Bool) :
    Option BibEntry :=
  if allocOk then
    some { btype := btype
           remote6_addr := remote6_addr
           local4_addr := local4_addr
           remote6_port := remote6_port
           local4_port := local4_port
           sessions := [] }
  else none

/-- session_create: fills a session from its BIB (state CLOSED), links it
at the head of the BIB's session list and at the tail of the chosen expiry
queue with deadline now plus that queue's timeout. -/
def session_create (bid : Nat) (in6_daddr : In6Addr) (addr port : Nat)
    (t : ExpiryType) (allocOk : Bool) (g : GState) : Option (Nat × GState) :=
  if allocOk then
    match lookupA g.bibs bid with
    | none => none
    | some bib =>
        let sid := g.next_id
        let s : STEntry :=
          { remote6_addr := bib.remote6_addr
            embedded6_addr := in6_daddr
            expires := g.jiffies + (g.expiry_base.get t).timeout * HZ
            state := .CLOSED
            local4_addr := bib.local4_addr
            remote4_addr := addr
            remote6_port := bib.remote6_port
            embedded6_port := port
            remote4_port := port
            local4_port := bib.local4_port }
        some (sid,
          { g with
            sessions := (sid, s) :: g.sessions
            bibs := updA g.bibs bid
              (fun b => { b with sessions := sid :: b.sessions })
            expiry_base := g.expiry_base.set t
              { g.expiry_base.get t with
                queue := (g.expiry_base.get t).queue ++ [sid] }
            next_id := g.next_id + 1 })
  else none

/-- session_create_tcp: same as session_create, drawing from the TCP cache. -/
def session_create_tcp (bid : Nat) (in6_daddr : In6Addr) (addr port : Nat)
    (t : ExpiryType) (allocOk : Bool) (g : GState) : Option (Nat × GState) :=
  if allocOk then
    match lookupA g.bibs bid with
    | none => none
    | some bib =>
        let sid := g.next_id
        let s : STEntry :=
          { remote6_addr := bib.remote6_addr
            embedded6_addr := in6_daddr
            expires := g.jiffies + (g.expiry_base.get t).timeout * HZ
            state := .CLOSED
            local4_addr := bib.local4_addr
            remote4_addr := addr
            remote6_port := bib.remote6_port
            embedded6_port := port
            remote4_port := port
            local4_port := bib.local4_port }
        some (sid,
          { g with
            sessions := (sid, s) :: g.sessions
            bibs := updA g.bibs bid
              (fun b => { b with sessions := sid :: b.sessions })
            expiry_base := g.expiry_base.set t
              { g.expiry_base.get t with
                queue := (g.expiry_base.get t).queue ++ [sid] }
            next_id := g.next_id + 1 })
  else none

/-- bib_session_create: draw a transport address from the free FIFO (when
it is empty the source stores -1 into the unsigned local4_port and
local4_addr, and the signedness test below never fires, so it proceeds
with 0xffff and 0xffffffff); create the BIB, hook it into hash6 at
nat64_hash6(saddr, sport) and into hash4 at local4_port; then create the
session.  When the session allocation fails the BIB is freed and NULL is
returned, but the hash hooks are left in place and the drawn transport
address is not returned. -/
def bib_session_create (g : GState) (saddr in6_daddr : In6Addr)
    (daddr sport dport protocol : Nat) (t : ExpiryType)
    (bibAllocOk sessAllocOk : Bool) : Option Nat × GState :=
  let drawn := get_tranport_addr g.free_transport
  let local4_port : Nat :=
    match drawn with
    | none => 65535
    | some (ta, _) => ntohs ta.2
  let local4_addr : Nat :=
    match drawn with
    | none => 2 ^ 32 - 1
    | some (ta, _) => ta.1
  let g0 : GState :=
    match drawn with
    | none => g
    | some (_, rest) => { g with free_transport := rest }
  match bib_create saddr sport local4_addr local4_port protocol bibAllocOk with
  | none => (none, g0)
  | some bib =>
      let bid := g0.next_id
      let g1 : GState :=
        { g0 with
          bibs := (bid, bib) :: g0.bibs
          next_id := g0.next_id + 1
          hash6 := (nat64_hash6 saddr sport, bid) :: g0.hash6
          hash4 := (local4_port, bid) :: g0.hash4 }
      match session_create bid in6_daddr daddr dport t sessAllocOk g1 with
      | none => (none, { g1 with bibs := delA g1.bibs bid })
      | some (_, g2) => (some bid, g2)

/-- bib_session_create_tcp: identical control flow through the TCP caches. -/
def bib_session_create_tcp (g : GState) (saddr in6_daddr : In6Addr)
    (daddr sport dport protocol : Nat) (t : ExpiryType)
    (bibAllocOk sessAllocOk : Bool) : Option Nat × GState :=
  let drawn := get_tranport_addr g.free_transport
  let local4_port : Nat :=
    match drawn with
    | none => 65535
    | some (ta, _) => ntohs ta.2
  let local4_addr : Nat :=
    match drawn with
    | none => 2 ^ 32 - 1
    | some (ta, _) => ta.1
  let g0 : GState :=
    match drawn with
    | none => g
    | some (_, rest) => { g with free_transport := rest }
  match bib_create_tcp saddr sport local4_addr local4_port protocol
      bibAllocOk with
  | none => (none, g0)
  | some bib =>
      let bid := g0.next_id
      let g1 : GState :=
        { g0 with
          bibs := (bid, bib) :: g0.bibs
          next_id := g0.next_id + 1
          hash6 := (nat64_hash6 saddr sport, bid) :: g0.hash6
          hash4 := (local4_port, bid) :: g0.hash4 }
      match session_create_tcp bid in6_daddr daddr dport t sessAllocOk g1 with
      | none => (none, { g1 with bibs := delA g1.bibs bid })
      | some (_, g2) => (some bid, g2)

/-- Empty pool4 pools. -/
def pool0 : Pool4.Pools := { udp := [], tcp := [], icmp := [] }

/-- Expiry queues with the default timeouts and no sessions. -/
def eb0 : ExpiryBase :=
  { udp_default := { timeout := 300, queue := [] }
    tcp_trans := { timeout := 240, queue := [] }
    tcp_est := { timeout := 7200, queue := [] }
    tcp_incoming_syn := { timeout := 6, queue := [] }
    icmp_default := { timeout := 60, queue := [] } }

/-- The address 198.51.100.1. -/
def addr631 : Nat := 3325256705

/-- A UDP session (id 1) whose deadline 50 lies in the past of jiffies 100. -/
def s3 : STEntry :=
  { remote6_addr := { w0 := 0x20010db8, w1 := 0, w2 := 0, w3 := 1 }
    embedded6_addr := { w0 := 0x0064ff9b, w1 := 0, w2 := 0, w3 := 0xc6336401 }
    expires := 50
    state := .CLOSED
    local4_addr := addr631
    remote4_addr := 0xc6336401
    remote6_port := 40000
    embedded6_port := 53
    remote4_port := 53
    local4_port := 40000 }

/-- The BIB (id 10) owning only session 1, holding 198.51.100.1:40000. -/
def b3 : BibEntry :=
  { btype := 17
    remote6_addr := { w0 := 0x20010db8, w1 := 0, w2 := 0, w3 := 1 }
    local4_addr := addr631
    remote6_port := 40000
    local4_port := 40000
    sessions := [1] }

/-- Pools holding 198.51.100.1, every free FIFO empty. -/
def pool3 : Pool4.Pools :=
  { udp := [Pool4.newPoolNode addr631]
    tcp := [Pool4.newPoolNode addr631]
    icmp := [Pool4.newPoolNode addr631] }

/-- State before the reaper runs: session 1 expired on the UDP queue, its
BIB hooked into both hash indices, pool4 holding its address with empty
free FIFOs. -/
def g3 : GState :=
  { jiffies := 100
    expiry_base := { eb0 with udp_default := { timeout := 300, queue := [1] } }
    sessions := [(1, s3)]
    bibs := [(10, b3)]
    hash6 := [(nat64_hash6 s3.remote6_addr 40000, 10)]
    hash4 := [(40000, 10)]
    free_transport := []
    pool := pool3
    next_id := 2 }

/-- C3: reaping the last session of a BIB frees the session and the BIB and
detaches the BIB from both hash indices, but no transport address is
returned to any pool: clean_expired_sessions leaves pool4 (and the free
transport FIFO) exactly as they were, so 198.51.100.1:40000 does not appear
in the free list of its section, refuting the port-return half of the
claim. -/
theorem reaper_cascade_frees_bib_without_port_return :
    (clean_expired_sessions .UDP_DEFAULT g3).sessions = [] ∧
    (clean_expired_sessions .UDP_DEFAULT g3).bibs = [] ∧
    (clean_expired_sessions .UDP_DEFAULT g3).hash6 = [] ∧
    (clean_expired_sessions .UDP_DEFAULT g3).hash4 = [] ∧
    (clean_expired_sessions .UDP_DEFAULT g3).pool = g3.pool ∧
    (clean_expired_sessions .UDP_DEFAULT g3).free_transport = [] ∧
    g3.pool.udp = [Pool4.newPoolNode addr631] ∧
    ((Pool4.newPoolNode addr631).sec (Pool4.get_section 40000)).free_ports
      = [] := by
  decide

/-- Source v6 endpoint for the creation scenario. -/
def saddr7 : In6Addr := { w0 := 0x20010db8, w1 := 0, w2 := 0, w3 := 1 }

/-- v6 destination for the creation scenario. -/
def daddr7 : In6Addr := { w0 := 0x0064ff9b, w1 := 0, w2 := 0, w3 := 0xc6336401 }

/-- State before bib_session_create: empty tables, one free transport
address (198.51.100.1, network-order port 16540, host order 40000). -/
def g7 : GState :=
  { jiffies := 0
    expiry_base := eb0
    sessions := []
    bibs := []
    hash6 := []
    hash4 := []
    free_transport := [(addr631, 16540)]
    pool := pool0
    next_id := 1 }

/-- bib_session_create on g7 with the BIB allocation succeeding and the
session allocation failing. -/
def bsc7 : Option Nat × GState :=
  bib_session_create g7 saddr7 daddr7 0xc6336401 1234 53 17 .UDP_DEFAULT
    true false

/-- The TCP sibling of bsc7. -/
def bsc7t : Option Nat × GState :=
  bib_session_create_tcp g7 saddr7 daddr7 0xc6336401 1234 53 6 .TCP_TRANS
    true false

/-- C7: when the session allocation fails after the BIB was created and
hooked into both hash indices, bib_session_create (and its TCP sibling)
returns NULL and frees the BIB, but the rollback is incomplete: both hash
indices keep their entry for the freed BIB (id 1 no longer in the heap),
and the drawn transport address is not returned to the free FIFO. -/
theorem bib_session_create_failed_session_no_rollback :
    bsc7.1 = none ∧
    bsc7.2.hash4 = [(40000, 1)] ∧
    bsc7.2.hash6 = [(nat64_hash6 saddr7 1234, 1)] ∧
    lookupA bsc7.2.bibs 1 = none ∧
    bsc7.2.free_transport = [] ∧
    bsc7t.1 = none ∧
    bsc7t.2.hash4 = [(40000, 1)] ∧
    bsc7t.2.hash6 = [(nat64_hash6 saddr7 1234, 1)] ∧
    lookupA bsc7t.2.bibs 1 = none ∧
    bsc7t.2.free_transport = [] := by
  decide

theorem lookupA_cons {α : Type} (e : Nat × α) (l : List (Nat × α)) (k : Nat) :
    lookupA (e :: l) k = if e.1 = k then some e.2 else lookupA l k := by
  by_cases he : e.1 = k
  · simp only [lookupA]
    rw [List.find?_cons_of_pos _ (by simp [he]), if_pos he]
    rfl
  · simp only [lookupA]
    rw [List.find?_cons_of_neg _ (by simp [he]), if_neg he]

theorem lookupA_updA_same {α : Type} :
    ∀ (l : List (Nat × α)) (k : Nat) (f : α → α),
      lookupA (updA l k f) k = (lookupA l k).map f := by
  intro l
  induction l with
  | nil => intro k f; rfl
  | cons e rest ih =>
      obtain ⟨a, x⟩ := e
      intro k f
      by_cases he : a = k <;> simp [updA, lookupA_cons, he, ih]

theorem lookupA_updA_ne {α : Type} :
    ∀ (l : List (Nat × α)) (k k' : Nat) (f : α → α), k' ≠ k →
      lookupA (updA l k f) k' = lookupA l k' := by
  intro l
  induction l with
  | nil => intro k k' f _; rfl
  | cons e rest ih =>
      obtain ⟨a, x⟩ := e
      intro k k' f hne
      by_cases he : a = k
      · have hkk : k ≠ k' := fun h => hne h.symm
        simp [updA, he, lookupA_cons, hkk]
      · by_cases ha' : a = k'
        · simp [updA, he, lookupA_cons, ha', hne]
        · simp [updA, he, lookupA_cons, ha', ih k k' f hne]

theorem lookupA_delA_ne {α : Type} :
    ∀ (l : List (Nat × α)) (k k' : Nat), k' ≠ k →
      lookupA (delA l k) k' = lookupA l k' := by
  intro l
  induction l with
  | nil => intro k k' _; rfl
  | cons e rest ih =>
      obtain ⟨a, x⟩ := e
      intro k k' hne
      by_cases he : a = k
      · have hkk : k ≠ k' := fun h => hne h.symm
        simp [delA, he, lookupA_cons, hkk]
      · by_cases ha' : a = k'
        · simp [delA, he, lookupA_cons, ha', hne]
        · simp [delA, he, lookupA_cons, ha', ih k k' hne]

theorem lookupA_eq_none_of_not_mem {α : Type} :
    ∀ (l : List (Nat × α)) (k : Nat), k ∉ l.map Prod.fst →
      lookupA l k = none := by
  intro l
  induction l with
  | nil => intro k _; rfl
  | cons e rest ih =>
      obtain ⟨a, x⟩ := e
      intro k hmem
      simp only [List.map_cons, List.mem_cons] at hmem
      push_neg at hmem
      have ha : a ≠ k := fun h => hmem.1 h.symm
      simp [lookupA_cons, ha, ih k hmem.2]

theorem lookupA_delA_same {α : Type} :
    ∀ (l : List (Nat × α)) (k : Nat), (l.map Prod.fst).Nodup →
      lookupA (delA l k) k = none := by
  intro l
  induction l with
  | nil => intro k _; rfl
  | cons e rest ih =>
      obtain ⟨a, x⟩ := e
      intro k hnd
      simp only [List.map_cons, List.nodup_cons] at hnd
      obtain ⟨hna, hnd'⟩ := hnd
      by_cases he : a = k
      · subst he
        simp only [delA, if_pos rfl]
        exact lookupA_eq_none_of_not_mem rest a hna
      · simp [delA, he, lookupA_cons, ih k hnd']

theorem eb_get_set_same (eb : ExpiryBase) (t : ExpiryType) (q : ExpiryQ) :
    (eb.set t q).get t = q := by
  cases t <;> rfl

theorem getLast?_append_singleton (l : List Nat) (x : Nat) :
    (l ++ [x]).getLast? = some x :=
  List.getLast?_concat l

theorem tcp_timeout_fsm_spec (x : Nat) (g : GState) :
    tcp_timeout_fsm x g =
      match lookupA g.sessions x with
      | none => (false, g)
      | some s =>
          if s.state = .ESTABLISHED then
            (true,
              { session_renew x .TCP_TRANS g with
                sessions := updA (session_renew x .TCP_TRANS g).sessions x
                  (fun s0 => { s0 with state := .FOUR_MIN }) })
          else (false, g) := rfl

theorem tcp_timeout_fsm_frame (x : Nat) (g : GState) (sid : Nat)
    (h : sid ≠ x) :
    lookupA (tcp_timeout_fsm x g).2.sessions sid = lookupA g.sessions sid := by
  cases hlk : lookupA g.sessions x with
  | none => simp only [tcp_timeout_fsm_spec, hlk]
  | some s =>
      simp only [tcp_timeout_fsm_spec, hlk]
      by_cases hst : s.state = .ESTABLISHED
      · rw [if_pos hst]
        dsimp only [session_renew]
        rw [lookupA_updA_ne _ _ _ _ h, lookupA_updA_ne _ _ _ _ h]
      · rw [if_neg hst]

theorem reap_free_frame (x : Nat) (t : ExpiryType) (g : GState) (sid : Nat)
    (h : sid ≠ x) :
    lookupA (reap_free x t g).sessions sid = lookupA g.sessions sid := by
  simp only [reap_free]
  split
  · exact lookupA_delA_ne _ _ _ h
  · split
    · exact lookupA_delA_ne _ _ _ h
    · exact lookupA_delA_ne _ _ _ h

theorem reap_free_removes (x : Nat) (t : ExpiryType) (g : GState)
    (hnd : (g.sessions.map Prod.fst).Nodup) :
    lookupA (reap_free x t g).sessions x = none := by
  simp only [reap_free]
  split
  · exact lookupA_delA_same _ _ hnd
  · split
    · exact lookupA_delA_same _ _ hnd
    · exact lookupA_delA_same _ _ hnd

theorem clean_walk_frame :
    ∀ (l : List Nat) (t : ExpiryType) (g : GState) (sid : Nat), sid ∉ l →
      lookupA (clean_walk l t g).sessions sid = lookupA g.sessions sid := by
  intro l
  induction l with
  | nil => intro t g sid _; rfl
  | cons x rest ih =>
      intro t g sid hmem
      have hx : sid ≠ x := fun h => hmem (h ▸ List.mem_cons_self x rest)
      have hrest : sid ∉ rest := fun h => hmem (List.mem_cons_of_mem x h)
      cases hlk : lookupA g.sessions x with
      | none =>
          simp only [clean_walk, hlk]
          exact ih t g sid hrest
      | some s =>
          simp only [clean_walk, hlk]
          by_cases hexp : time_after g.jiffies s.expires = true
          · rw [if_pos hexp]
            by_cases hg : (tcp_timeout_fsm x g).1 = true
            · rw [if_pos hg, ih t _ sid hrest, tcp_timeout_fsm_frame x g sid hx]
            · rw [if_neg hg, ih t _ sid hrest, reap_free_frame x t g sid hx]
          · rw [if_neg hexp]

theorem tcp_timeout_fsm_established {g : GState} {sid : Nat} {s : STEntry}
    (hs : lookupA g.sessions sid = some s) (hst : s.state = .ESTABLISHED) :
    (tcp_timeout_fsm sid g).1 = true ∧
    lookupA (tcp_timeout_fsm sid g).2.sessions sid =
      some { s with
        state := .FOUR_MIN
        expires :=
          g.jiffies + (g.expiry_base.get .TCP_TRANS).timeout * HZ } ∧
    ((tcp_timeout_fsm sid g).2.expiry_base.get .TCP_TRANS).queue.getLast?
      = some sid := by
  simp only [tcp_timeout_fsm_spec, hs]
  rw [if_pos hst]
  refine ⟨rfl, ?_, ?_⟩
  · dsimp only [session_renew]
    rw [lookupA_updA_same, lookupA_updA_same, hs]
    rfl
  · dsimp only [session_renew]
    rw [eb_get_set_same]
    exact getLast?_append_singleton _ _

theorem tcp_timeout_fsm_not_established {g : GState} {sid : Nat} {s : STEntry}
    (hs : lookupA g.sessions sid = some s)
    (hst : ¬s.state = .ESTABLISHED) : tcp_timeout_fsm sid g = (false, g) := by
  simp only [tcp_timeout_fsm_spec, hs]
  rw [if_neg hst]

/-- C4: for every expired session the reaper encounters: when its state is
ESTABLISHED, tcp_timeout_fsm grants grace (returns 1), the walk continues
without freeing it, and the session survives with state FOUR_MIN and a
fresh deadline of now plus the TCP_TRANS timeout, re-enqueued at the tail
of the TCP_TRANS queue; in any other state tcp_timeout_fsm returns 0 with
no change and the reaper frees the session. -/
theorem reaper_grace_policy (g : GState) (sid : Nat) (s : STEntry)
    (rest : List Nat) (t : ExpiryType)
    (hnd : (g.sessions.map Prod.fst).Nodup)
    (hs : lookupA g.sessions sid = some s)
    (hexp : time_after g.jiffies s.expires = true) :
    (s.state = .ESTABLISHED →
      (tcp_timeout_fsm sid g).1 = true ∧
      clean_walk (sid :: rest) t g
        = clean_walk rest t (tcp_timeout_fsm sid g).2 ∧
      lookupA (tcp_timeout_fsm sid g).2.sessions sid =
        some { s with
          state := .FOUR_MIN
          expires :=
            g.jiffies + (g.expiry_base.get .TCP_TRANS).timeout * HZ } ∧
      ((tcp_timeout_fsm sid g).2.expiry_base.get .TCP_TRANS).queue.getLast?
        = some sid ∧
      (sid ∉ rest →
        lookupA (clean_walk (sid :: rest) t g).sessions sid =
          some { s with
            state := .FOUR_MIN
            expires :=
              g.jiffies + (g.expiry_base.get .TCP_TRANS).timeout * HZ })) ∧
    (¬s.state = .ESTABLISHED →
      tcp_timeout_fsm sid g = (false, g) ∧
      clean_walk (sid :: rest) t g = clean_walk rest t (reap_free sid t g) ∧
      lookupA (reap_free sid t g).sessions sid = none ∧
      (sid ∉ rest →
        lookupA (clean_walk (sid :: rest) t g).sessions sid = none)) := by
  constructor
  · intro hst
    obtain ⟨h1, h2, h3⟩ := tcp_timeout_fsm_established hs hst
    have hstep : clean_walk (sid :: rest) t g
        = clean_walk rest t (tcp_timeout_fsm sid g).2 := by
      simp only [clean_walk, hs]
      rw [if_pos hexp, if_pos h1]
    refine ⟨h1, hstep, h2, h3, ?_⟩
    intro hmem
    rw [hstep, clean_walk_frame rest t _ sid hmem, h2]
  · intro hst
    have hfsm := tcp_timeout_fsm_not_established hs hst
    have h1 : (tcp_timeout_fsm sid g).1 = false := by rw [hfsm]
    have hstep : clean_walk (sid :: rest) t g
        = clean_walk rest t (reap_free sid t g) := by
      simp only [clean_walk, hs]
      rw [if_pos hexp, if_neg (by rw [h1]; exact Bool.false_ne_true)]
    refine ⟨hfsm, hstep, reap_free_removes sid t g hnd, ?_⟩
    intro hmem
    rw [hstep, clean_walk_frame rest t _ sid hmem,
      reap_free_removes sid t g hnd]

/-- An expired ESTABLISHED session (id 1) on the TCP_EST queue. -/
def s4 : STEntry :=
  { remote6_addr := { w0 := 0x20010db8, w1 := 0, w2 := 0, w3 := 1 }
    embedded6_addr := { w0 := 0, w1 := 0, w2 := 0, w3 := 0 }
    expires := 10
    state := .ESTABLISHED
    local4_addr := addr631
    remote4_addr := 0xc6336401
    remote6_port := 40001
    embedded6_port := 80
    remote4_port := 80
    local4_port := 40001 }

/-- State for the C4 witness: jiffies 500, session 1 of s4 expired. -/
def g4 : GState :=
  { jiffies := 500
    expiry_base := { eb0 with tcp_est := { timeout := 7200, queue := [1] } }
    sessions := [(1, s4)]
    bibs := [(2,
      { btype := 6
        remote6_addr := { w0 := 0x20010db8, w1 := 0, w2 := 0, w3 := 1 }
        local4_addr := addr631
        remote6_port := 40001
        local4_port := 40001
        sessions := [1] })]
    hash6 := [(3, 2)]
    hash4 := [(40001, 2)]
    free_transport := []
    pool := pool0
    next_id := 3 }

/-- Witness for C4: the expired ESTABLISHED session 1 of g4 is granted
grace, kept, demoted to FOUR_MIN and re-enqueued on TCP_TRANS. -/
theorem reaper_grace_policy_witness :
    (tcp_timeout_fsm 1 g4).1 = true ∧
    clean_walk [1] .TCP_EST g4
      = clean_walk [] .TCP_EST (tcp_timeout_fsm 1 g4).2 ∧
    lookupA (tcp_timeout_fsm 1 g4).2.sessions 1 =
      some { s4 with
        state := .FOUR_MIN
        expires :=
          g4.jiffies + (g4.expiry_base.get .TCP_TRANS).timeout * HZ } ∧
    ((tcp_timeout_fsm 1 g4).2.expiry_base.get .TCP_TRANS).queue.getLast?
      = some 1 ∧
    ((1 : Nat) ∉ ([] : List Nat) →
      lookupA (clean_walk [1] .TCP_EST g4).sessions 1 =
        some { s4 with
          state := .FOUR_MIN
          expires :=
            g4.jiffies + (g4.expiry_base.get .TCP_TRANS).timeout * HZ }) :=
  (reaper_grace_policy g4 1 s4 [] .TCP_EST (by decide) (by decide)
    (by decide)).1 rfl

end FU

end Jool
